import Mathlib

/-!
Verification of the streaming aggregation core of `binance_data_collector.py`
(`DataProcessor` with `add_trade` and `process_minute_candle`).

Modelling conventions:
* Python integers and millisecond timestamps become `Int`; Python floor
  division `//` becomes `Int.fdiv`.
* Prices and quantities (Python floats that are only copied or summed)
  become `Rat`, treating them as the exact decimals the spec describes.
* The insertion-ordered Python `dict` keyed by second becomes an
  association list `List (Int × SecondCount)`; a new key is appended at
  the end, matching dict insertion order.
* `defaultdict(lambda: {'buyers': 0, 'sellers': 0})` read access is
  modelled faithfully by `ddGet`, which RETURNS the stored entry when the
  key is present and otherwise INSERTS a fresh zero entry (the
  auto-vivification behaviour of `defaultdict.__getitem__`).
-/

namespace BinanceCollector

/-- `TradeData` from the source: one trade tick.  `is_buyer_maker` is the
spec's `isSellPressure` (true means the trade was seller-initiated). -/
structure TradeData where
  timestamp : Int
  price : Rat
  quantity : Rat
  is_buyer_maker : Bool
  trade_id : Int
  deriving DecidableEq, Repr

/-- One entry of `second_trade_counts`: the inner dict
`{'buyers': _, 'sellers': _}`. -/
structure SecondCount where
  buyers : Nat
  sellers : Nat
  deriving DecidableEq, Repr

/-- The `second_trade_counts` dict keyed by integer second, in insertion
order. -/
abbrev SecondMap := List (Int × SecondCount)

/-- Plain read of a second's tally, first matching key; an absent key reads
as the zero tally (this is what a `defaultdict` access yields as a value). -/
def lookupCount : SecondMap → Int → SecondCount
  | [], _ => ⟨0, 0⟩
  | (k, c) :: rest, s => if k = s then c else lookupCount rest s

/-- Whether the dict has an entry for second `s`. -/
def containsKey : SecondMap → Int → Bool
  | [], _ => false
  | (k, _) :: rest, s => k = s || containsKey rest s

/-- `defaultdict.__getitem__`: return the stored entry when present,
otherwise insert (append) a fresh zero entry and return it. -/
def ddGet (m : SecondMap) (s : Int) : SecondCount × SecondMap :=
  if containsKey m s then (lookupCount m s, m) else (⟨0, 0⟩, m ++ [(s, ⟨0, 0⟩)])

/-- Increment one side of a tally (`['sellers'] += 1` / `['buyers'] += 1`). -/
def bumpCount (c : SecondCount) (isSeller : Bool) : SecondCount :=
  if isSeller then ⟨c.buyers, c.sellers + 1⟩ else ⟨c.buyers + 1, c.sellers⟩

/-- The combined `defaultdict` access-and-increment performed by
`add_trade`: fetch (or create) the entry for second `s` and bump one
counter.  A newly created key is appended at the end, as in a dict. -/
def tallyBump : SecondMap → Int → Bool → SecondMap
  | [], s, isSeller => [(s, bumpCount ⟨0, 0⟩ isSeller)]
  | (k, c) :: rest, s, isSeller =>
      if k = s then (k, bumpCount c isSeller) :: rest
      else (k, c) :: tallyBump rest s isSeller

/-- The mutable state of `DataProcessor`. -/
structure DataProcessor where
  trades_buffer : List TradeData
  second_trade_counts : SecondMap
  current_minute_start : Option Int
  deriving DecidableEq, Repr

/-- `DataProcessor.__init__`. -/
def DataProcessor.init : DataProcessor := ⟨[], [], none⟩

/-- `DataProcessor.add_trade` (source lines 86-94): append the trade to the
buffer and bump the per-second tally at `trade.timestamp // 1000`, on the
sellers side when `is_buyer_maker` and the buyers side otherwise. -/
def add_trade (st : DataProcessor) (trade : TradeData) : DataProcessor :=
  { st with
    trades_buffer := st.trades_buffer ++ [trade],
    second_trade_counts :=
      tallyBump st.second_trade_counts (Int.fdiv trade.timestamp 1000)
        trade.is_buyer_maker }

/-- The trade filter inlined at source lines 104-107 (the spec's
`tradesInRange`): all buffered trades with
`open_time <= timestamp <= close_time`. -/
def tradesInRange (st : DataProcessor) (open_time close_time : Int) :
    List TradeData :=
  st.trades_buffer.filter
    (fun trade =>
      decide (open_time ≤ trade.timestamp ∧ trade.timestamp ≤ close_time))

/-- The per-second maxima scan at source lines 136-140 (the spec's
`maxTalliesInRange`), threading the `defaultdict` state: iterate `n`
seconds starting at `s`, folding the running maxima, with each read going
through `ddGet` (so missing seconds are auto-vivified exactly as the
source's `self.second_trade_counts[second]` access does). -/
def maxTalliesLoop : SecondMap → Int → Nat → Nat → Nat → Nat × Nat × SecondMap
  | m, _, 0, mb, ms => (mb, ms, m)
  | m, s, n + 1, mb, ms =>
      let r := ddGet m s
      maxTalliesLoop r.2 (s + 1) n (max mb r.1.buyers) (max ms r.1.sellers)

/-- The eviction step at source lines 159-167 (the spec's `evictBefore`):
keep trades with `timestamp > cutoff_time` and delete tally entries with
`second < cutoff_time // 1000`. -/
def evictBefore (st : DataProcessor) (cutoff_time : Int) : DataProcessor :=
  let cutoff_second := Int.fdiv cutoff_time 1000
  { st with
    trades_buffer :=
      st.trades_buffer.filter (fun trade => decide (cutoff_time < trade.timestamp)),
    second_trade_counts :=
      st.second_trade_counts.filter (fun p => !decide (p.1 < cutoff_second)) }

/-- The parsed fields of the kline payload consumed by
`process_minute_candle`: `x` (closed flag), `t`/`T` (open/close time, ms)
and the OHLCV decimal fields. -/
structure KlineData where
  x : Bool
  t : Int
  T : Int
  o : Rat
  h : Rat
  l : Rat
  c : Rat
  v : Rat
  deriving DecidableEq, Repr

/-- `CandleData` from the source. -/
structure CandleData where
  timestamp : Int
  open_price : Rat
  high_price : Rat
  low_price : Rat
  close_price : Rat
  volume : Rat
  num_buyers : Nat
  num_sellers : Nat
  buyers_volume : Rat
  sellers_volume : Rat
  power_position : Int
  max_buyers_per_second : Nat
  max_sellers_per_second : Nat
  deriving DecidableEq, Repr

/-- `DataProcessor.process_minute_candle` (source lines 96-169), returning
the produced candle (or `none` for a non-closed kline) together with the
post-call state. -/
def process_minute_candle (st : DataProcessor) (kline_data : KlineData) :
    Option CandleData × DataProcessor :=
  if !kline_data.x then (none, st)
  else
    let open_time := kline_data.t
    let close_time := kline_data.T
    let minute_trades := tradesInRange st open_time close_time
    let num_buyers :=
      if minute_trades.isEmpty then 0
      else (minute_trades.filter (fun trade => !trade.is_buyer_maker)).length
    let num_sellers :=
      if minute_trades.isEmpty then 0
      else (minute_trades.filter (fun trade => trade.is_buyer_maker)).length
    let buyers_volume : Rat :=
      if minute_trades.isEmpty then 0
      else ((minute_trades.filter (fun trade => !trade.is_buyer_maker)).map
        (fun trade => trade.quantity)).sum
    let sellers_volume : Rat :=
      if minute_trades.isEmpty then 0
      else ((minute_trades.filter (fun trade => trade.is_buyer_maker)).map
        (fun trade => trade.quantity)).sum
    let power_position : Int :=
      if num_buyers > num_sellers then 1
      else if num_sellers > num_buyers then -1
      else 0
    let start_second := Int.fdiv open_time 1000
    let end_second := Int.fdiv close_time 1000
    let scanned := maxTalliesLoop st.second_trade_counts start_second
      (end_second + 1 - start_second).toNat 0 0
    let candle : CandleData :=
      { timestamp := open_time
        open_price := kline_data.o
        high_price := kline_data.h
        low_price := kline_data.l
        close_price := kline_data.c
        volume := kline_data.v
        num_buyers := num_buyers
        num_sellers := num_sellers
        buyers_volume := buyers_volume
        sellers_volume := sellers_volume
        power_position := power_position
        max_buyers_per_second := scanned.1
        max_sellers_per_second := scanned.2.1 }
    let cutoff_time := close_time - 2 * 60 * 1000
    let st1 : DataProcessor := { st with second_trade_counts := scanned.2.2 }
    (some candle, evictBefore st1 cutoff_time)

/-- The raw kline message before its fields are parsed: `none` marks a
field that is missing or whose string does not parse (`int(...)` /
`float(...)` would raise there).  `x?` is read with `.get('x', False)`,
which never raises. -/
structure KlineRaw where
  x? : Option Bool
  t? : Option Int
  T? : Option Int
  o? : Option Rat
  h? : Option Rat
  l? : Option Rat
  c? : Option Rat
  v? : Option Rat

/-- `process_minute_candle` with the field parsing made explicit: a `none`
result marks an escaped exception (missing key or failed numeric parse).
The OHLCV fields are parsed at candle construction in the source; since
everything between the `int(...)` calls and that point is total, parsing
them in one block preserves the success/failure behaviour. -/
def processMinuteCandleChecked (st : DataProcessor) (k : KlineRaw) :
    Option (Option CandleData × DataProcessor) :=
  if !(k.x?.getD false) then some (none, st)
  else do
    let t ← k.t?
    let tClose ← k.T?
    let o ← k.o?
    let h ← k.h?
    let l ← k.l?
    let c ← k.c?
    let v ← k.v?
    some (process_minute_candle st ⟨true, t, tClose, o, h, l, c, v⟩)

/-- A well-formed bucket summary: integer open/close times present and all
OHLCV fields numeric, as §6 of the spec demands. -/
def KlineRaw.wellFormed (k : KlineRaw) : Prop :=
  k.t?.isSome ∧ k.T?.isSome ∧ k.o?.isSome ∧ k.h?.isSome ∧ k.l?.isSome ∧
    k.c?.isSome ∧ k.v?.isSome

/-! ### Helper lemmas -/

/-- Deleting every key below `cs` makes any second below `cs` read as the
zero tally. -/
theorem lookupCount_filter_lt (m : SecondMap) (cs s : Int) (hs : s < cs) :
    lookupCount (m.filter (fun p => !decide (p.1 < cs))) s = ⟨0, 0⟩ := by
  induction m with
  | nil => rfl
  | cons hd tl ih =>
    obtain ⟨k, c⟩ := hd
    by_cases hk : k < cs
    · simpa [List.filter_cons, hk] using ih
    · have hne : k ≠ s := by omega
      simpa [List.filter_cons, hk, lookupCount, hne] using ih

/-- Every trade surviving `evictBefore` has `timestamp > cutoff_time`. -/
theorem evictBefore_trades_mem (st : DataProcessor) (cutoff : Int)
    (trade : TradeData) (h : trade ∈ (evictBefore st cutoff).trades_buffer) :
    cutoff < trade.timestamp := by
  simp only [evictBefore, List.mem_filter, decide_eq_true_eq] at h
  exact h.2

/-- After `evictBefore`, every second below `cutoff // 1000` reads as the
zero tally. -/
theorem evictBefore_lookup_lt (st : DataProcessor) (cutoff s : Int)
    (hs : s < Int.fdiv cutoff 1000) :
    lookupCount (evictBefore st cutoff).second_trade_counts s = ⟨0, 0⟩ := by
  simp only [evictBefore]
  exact lookupCount_filter_lt _ _ _ hs

/-- Reading the bumped second after `tallyBump` yields the bumped tally. -/
theorem lookupCount_tallyBump_self (m : SecondMap) (s : Int) (b : Bool) :
    lookupCount (tallyBump m s b) s = bumpCount (lookupCount m s) b := by
  induction m with
  | nil => simp [tallyBump, lookupCount]
  | cons hd tl ih =>
    obtain ⟨k, c⟩ := hd
    by_cases hk : k = s
    · simp [tallyBump, hk, lookupCount]
    · simp [tallyBump, hk, lookupCount, ih]

/-- `tallyBump` leaves every other second's tally unchanged. -/
theorem lookupCount_tallyBump_ne (m : SecondMap) (s s' : Int) (b : Bool)
    (h : s' ≠ s) :
    lookupCount (tallyBump m s b) s' = lookupCount m s' := by
  induction m with
  | nil => simp [tallyBump, lookupCount, Ne.symm h]
  | cons hd tl ih =>
    obtain ⟨k, c⟩ := hd
    by_cases hk : k = s
    · subst hk
      simp [tallyBump, lookupCount, Ne.symm h]
    · simp [tallyBump, hk, lookupCount, ih]

/-- Unfolding of `process_minute_candle` on a closed kline: the produced
candle, written out field by field. -/
theorem process_minute_candle_closed_fst (st : DataProcessor) (k : KlineData)
    (hx : k.x = true) :
    (process_minute_candle st k).1 =
      some { timestamp := k.t
             open_price := k.o
             high_price := k.h
             low_price := k.l
             close_price := k.c
             volume := k.v
             num_buyers :=
               if (tradesInRange st k.t k.T).isEmpty then 0
               else ((tradesInRange st k.t k.T).filter
                 (fun trade => !trade.is_buyer_maker)).length
             num_sellers :=
               if (tradesInRange st k.t k.T).isEmpty then 0
               else ((tradesInRange st k.t k.T).filter
                 (fun trade => trade.is_buyer_maker)).length
             buyers_volume :=
               if (tradesInRange st k.t k.T).isEmpty then 0
               else (((tradesInRange st k.t k.T).filter
                 (fun trade => !trade.is_buyer_maker)).map
                   (fun trade => trade.quantity)).sum
             sellers_volume :=
               if (tradesInRange st k.t k.T).isEmpty then 0
               else (((tradesInRange st k.t k.T).filter
                 (fun trade => trade.is_buyer_maker)).map
                   (fun trade => trade.quantity)).sum
             power_position :=
               if (if (tradesInRange st k.t k.T).isEmpty then 0
                   else ((tradesInRange st k.t k.T).filter
                     (fun trade => !trade.is_buyer_maker)).length) >
                  (if (tradesInRange st k.t k.T).isEmpty then 0
                   else ((tradesInRange st k.t k.T).filter
                     (fun trade => trade.is_buyer_maker)).length) then 1
               else if (if (tradesInRange st k.t k.T).isEmpty then 0
                   else ((tradesInRange st k.t k.T).filter
                     (fun trade => trade.is_buyer_maker)).length) >
                  (if (tradesInRange st k.t k.T).isEmpty then 0
                   else ((tradesInRange st k.t k.T).filter
                     (fun trade => !trade.is_buyer_maker)).length) then -1
               else 0
             max_buyers_per_second :=
               (maxTalliesLoop st.second_trade_counts (Int.fdiv k.t 1000)
                 (Int.fdiv k.T 1000 + 1 - Int.fdiv k.t 1000).toNat 0 0).1
             max_sellers_per_second :=
               (maxTalliesLoop st.second_trade_counts (Int.fdiv k.t 1000)
                 (Int.fdiv k.T 1000 + 1 - Int.fdiv k.t 1000).toNat 0 0).2.1 } := by
  rw [process_minute_candle, hx]
  rfl

/-- Unfolding of `process_minute_candle` on a closed kline: the post-call
state is one eviction with cutoff `close_time - 2 * 60 * 1000`, applied to
the state whose tally map has passed through the maxima scan. -/
theorem process_minute_candle_closed_snd (st : DataProcessor) (k : KlineData)
    (hx : k.x = true) :
    (process_minute_candle st k).2 =
      evictBefore
        { st with second_trade_counts :=
            (maxTalliesLoop st.second_trade_counts (Int.fdiv k.t 1000)
              (Int.fdiv k.T 1000 + 1 - Int.fdiv k.t 1000).toNat 0 0).2.2 }
        (k.T - 2 * 60 * 1000) := by
  rw [process_minute_candle, hx]
  rfl

/-- The buyer-side and seller-side filters partition a trade list. -/
theorem length_buyers_sellers (l : List TradeData) :
    (l.filter (fun trade => !trade.is_buyer_maker)).length +
      (l.filter (fun trade => trade.is_buyer_maker)).length = l.length := by
  induction l with
  | nil => rfl
  | cons a tl ih =>
    cases ha : a.is_buyer_maker <;> simp [List.filter_cons, ha] <;> omega

/-- The buyer-side and seller-side quantity sums partition the total
quantity sum. -/
theorem sum_buyers_sellers (l : List TradeData) :
    ((l.filter (fun trade => !trade.is_buyer_maker)).map
        (fun trade => trade.quantity)).sum +
      ((l.filter (fun trade => trade.is_buyer_maker)).map
        (fun trade => trade.quantity)).sum =
      (l.map (fun trade => trade.quantity)).sum := by
  induction l with
  | nil => simp
  | cons a tl ih =>
    cases ha : a.is_buyer_maker <;> simp [List.filter_cons, ha] <;>
      rw [← ih] <;> ring

/-! ### Concrete scenario states -/

/-- The processor after the spec scenario's three trades: `t=1000` buy,
`t=1500` sell, `t=2999` buy. -/
def c1_state : DataProcessor :=
  add_trade
    (add_trade (add_trade DataProcessor.init ⟨1000, 100, 1, false, 1⟩)
      ⟨1500, 100, 1, true, 2⟩)
    ⟨2999, 100, 1, false, 3⟩

/-- The closed bucket `[open=0, close=3000]` of the spec scenario. -/
def c1_kline : KlineData := ⟨true, 0, 3000, 1, 1, 1, 1, 1⟩

/-- The candle the scenario run produces. -/
def c1_candle : CandleData := ⟨0, 1, 1, 1, 1, 1, 2, 1, 2, 1, 1, 1, 1⟩

/-- A closed bucket `[open=0, close=3000]` over an untouched processor,
exercising the maxima scan on seconds never recorded. -/
def c3_kline : KlineData := ⟨true, 0, 3000, 1, 1, 1, 1, 1⟩

/-- A processor holding one old trade at `t=1000` (second 1). -/
def c2_state : DataProcessor := add_trade DataProcessor.init ⟨1000, 1, 1, false, 1⟩

/-- A closed bucket whose eviction cutoff `210000 - 120000 = 90000` lies
above the old trade. -/
def c2_kline : KlineData := ⟨true, 150000, 210000, 1, 1, 1, 1, 1⟩

/-- A raw kline message with every field present and parseable. -/
def c9_kline : KlineRaw :=
  ⟨some true, some 0, some 3000, some 1, some 1, some 1, some 1, some 1⟩

/-- Evaluation of the scenario run: the produced candle is `c1_candle`.
(The rational volume sums are evaluated by `norm_num`, the rest by
kernel reduction.) -/
theorem c1_run_eq :
    (process_minute_candle c1_state c1_kline).1 = some c1_candle := by
  rw [process_minute_candle_closed_fst c1_state c1_kline rfl]
  have htr : tradesInRange c1_state c1_kline.t c1_kline.T =
      [⟨1000, 100, 1, false, 1⟩, ⟨1500, 100, 1, true, 2⟩,
        ⟨2999, 100, 1, false, 3⟩] := by
    decide
  have hmt : maxTalliesLoop c1_state.second_trade_counts
      (Int.fdiv c1_kline.t 1000)
      (Int.fdiv c1_kline.T 1000 + 1 - Int.fdiv c1_kline.t 1000).toNat 0 0 =
      (1, 1, [(1, ⟨1, 1⟩), (2, ⟨1, 0⟩), (0, ⟨0, 0⟩), (3, ⟨0, 0⟩)]) := by
    decide
  rw [htr, hmt]
  norm_num [List.filter, c1_candle, c1_kline]

/-! ### Claims -/

/-- C1: starting from an empty `DataProcessor`, record trades at `t=1000`
(buy), `t=1500` (sell), `t=2999` (buy), then process the closed bucket
`[open=0, close=3000]`; the produced candle has `num_buyers = 2`,
`num_sellers = 1`, `power_position = 1`, `max_buyers_per_second = 1` and
`max_sellers_per_second = 1`. -/
theorem scenario_candle_metrics :
    ((process_minute_candle c1_state c1_kline).1.map
      (fun cd => (cd.num_buyers, cd.num_sellers, cd.power_position,
        cd.max_buyers_per_second, cd.max_sellers_per_second))) =
      some (2, 1, 1, 1, 1) := by decide

/-- C2: processing a closed bucket evicts with cutoff
`close_time - 2 * 60 * 1000`; afterwards no `tradesInRange` query on the
resulting state returns a trade with `timestamp ≤ cutoff`, and every second
below `cutoff // 1000` reads as the zero tally, so no `maxTalliesInRange`
query can reflect such a second. -/
theorem eviction_consistency (st st' : DataProcessor) (k : KlineData)
    (cd : Option CandleData) (o c : Int) (hx : k.x = true)
    (h : process_minute_candle st k = (cd, st')) :
    (∀ trade ∈ tradesInRange st' o c, ¬ trade.timestamp ≤ k.T - 2 * 60 * 1000) ∧
    (∀ s : Int, s < Int.fdiv (k.T - 2 * 60 * 1000) 1000 →
      lookupCount st'.second_trade_counts s = ⟨0, 0⟩) := by
  have h2 : st' = (process_minute_candle st k).2 := by rw [h]
  rw [process_minute_candle_closed_snd st k hx] at h2
  subst h2
  refine ⟨?_, ?_⟩
  · intro trade htr
    have hmem : trade ∈ (evictBefore _ (k.T - 2 * 60 * 1000)).trades_buffer :=
      (List.mem_filter.mp htr).1
    have := evictBefore_trades_mem _ _ _ hmem
    omega
  · intro s hs
    exact evictBefore_lookup_lt _ _ _ hs

/-- C2 witness: concrete instance of the eviction consistency theorem. -/
theorem eviction_consistency_witness :
    lookupCount ((process_minute_candle c2_state c2_kline).2).second_trade_counts
      1 = ⟨0, 0⟩ :=
  (eviction_consistency c2_state ((process_minute_candle c2_state c2_kline).2)
    c2_kline ((process_minute_candle c2_state c2_kline).1) 0 0 rfl rfl).2 1
    (by decide)

/-- C3: the claim says the per-second maxima scan leaves the tally map
unchanged; the source violates it — its `defaultdict` read access inserts a
zero tally entry for every queried-but-never-recorded second.  Processing a
closed bucket over seconds 0..3 on a fresh processor leaves four inserted
entries behind. -/
theorem scan_inserts_tally_entries :
    (process_minute_candle DataProcessor.init c3_kline).2.second_trade_counts =
      [(0, ⟨0, 0⟩), (1, ⟨0, 0⟩), (2, ⟨0, 0⟩), (3, ⟨0, 0⟩)] := by decide

/-- C4: a buffered trade is in `tradesInRange open close` exactly when
`open ≤ timestamp ≤ close`, inclusive at both ends. -/
theorem tradesInRange_inclusive (st : DataProcessor) (trade : TradeData)
    (o c : Int) (hmem : trade ∈ st.trades_buffer) :
    trade ∈ tradesInRange st o c ↔
      (o ≤ trade.timestamp ∧ trade.timestamp ≤ c) := by
  simp [tradesInRange, List.mem_filter, hmem]

/-- C4 witness: concrete instance of the range inclusivity theorem. -/
theorem tradesInRange_inclusive_witness :
    (⟨1000, 1, 1, false, 1⟩ : TradeData) ∈ tradesInRange c2_state 0 3000 ↔
      ((0 : Int) ≤ (⟨1000, 1, 1, false, 1⟩ : TradeData).timestamp ∧
        (⟨1000, 1, 1, false, 1⟩ : TradeData).timestamp ≤ 3000) :=
  tradesInRange_inclusive c2_state ⟨1000, 1, 1, false, 1⟩ 0 3000 (by decide)

/-- C5: `add_trade` appends the trade to the buffer and increments exactly
one counter by one in the tally entry for second `timestamp // 1000` — the
sellers counter when `is_buyer_maker` (the spec's `isSellPressure`) is
true, the buyers counter otherwise — leaving every other second unchanged,
with no validation whatsoever (a duplicate is simply counted again). -/
theorem add_trade_spec (st : DataProcessor) (trade : TradeData) :
    (add_trade st trade).trades_buffer = st.trades_buffer ++ [trade] ∧
    (lookupCount (add_trade st trade).second_trade_counts
        (Int.fdiv trade.timestamp 1000)).sellers =
      (lookupCount st.second_trade_counts (Int.fdiv trade.timestamp 1000)).sellers +
        (if trade.is_buyer_maker then 1 else 0) ∧
    (lookupCount (add_trade st trade).second_trade_counts
        (Int.fdiv trade.timestamp 1000)).buyers =
      (lookupCount st.second_trade_counts (Int.fdiv trade.timestamp 1000)).buyers +
        (if trade.is_buyer_maker then 0 else 1) ∧
    ∀ s : Int, s ≠ Int.fdiv trade.timestamp 1000 →
      lookupCount (add_trade st trade).second_trade_counts s =
        lookupCount st.second_trade_counts s := by
  refine ⟨rfl, ?_, ?_, ?_⟩
  · rw [add_trade]
    dsimp only
    rw [lookupCount_tallyBump_self]
    cases trade.is_buyer_maker <;> simp [bumpCount]
  · rw [add_trade]
    dsimp only
    rw [lookupCount_tallyBump_self]
    cases trade.is_buyer_maker <;> simp [bumpCount]
  · intro s hs
    rw [add_trade]
    dsimp only
    exact lookupCount_tallyBump_ne _ _ _ _ hs

/-- C5 witness: concrete instance of the `add_trade` specification. -/
theorem add_trade_spec_witness :
    lookupCount
        (add_trade DataProcessor.init ⟨1000, 1, 1, false, 1⟩).second_trade_counts
        5 =
      lookupCount DataProcessor.init.second_trade_counts 5 :=
  (add_trade_spec DataProcessor.init ⟨1000, 1, 1, false, 1⟩).2.2.2 5 (by decide)

/-- C6: every candle produced by `process_minute_candle` has
`power_position = 0` when the buyer and seller counts are equal, `1` when
buyers outnumber sellers, and `-1` when sellers outnumber buyers. -/
theorem power_position_cases (st : DataProcessor) (k : KlineData)
    (cd : CandleData) (h : (process_minute_candle st k).1 = some cd) :
    (cd.num_buyers = cd.num_sellers → cd.power_position = 0) ∧
    (cd.num_buyers > cd.num_sellers → cd.power_position = 1) ∧
    (cd.num_sellers > cd.num_buyers → cd.power_position = -1) := by
  by_cases hx : k.x = true
  · rw [process_minute_candle_closed_fst st k hx] at h
    injection h with h
    subst h
    dsimp only
    generalize (if (tradesInRange st k.t k.T).isEmpty then 0
      else ((tradesInRange st k.t k.T).filter
        (fun trade => !trade.is_buyer_maker)).length) = nb
    generalize (if (tradesInRange st k.t k.T).isEmpty then 0
      else ((tradesInRange st k.t k.T).filter
        (fun trade => trade.is_buyer_maker)).length) = ns
    refine ⟨fun hc => ?_, fun hc => ?_, fun hc => ?_⟩ <;> split_ifs <;> omega
  · rw [process_minute_candle] at h
    simp only [Bool.not_eq_true] at hx
    rw [hx] at h
    exact absurd h (by simp)

/-- C6 witness: concrete instance of the power-position theorem. -/
theorem power_position_cases_witness :
    (c1_candle.num_buyers = c1_candle.num_sellers → c1_candle.power_position = 0) ∧
    (c1_candle.num_buyers > c1_candle.num_sellers → c1_candle.power_position = 1) ∧
    (c1_candle.num_sellers > c1_candle.num_buyers → c1_candle.power_position = -1) :=
  power_position_cases c1_state c1_kline c1_candle c1_run_eq

/-- C7: a closed bucket matching zero buffered trades still yields a candle
(`some`, not `none`) whose buyer/seller counts, buyer/seller volumes and
power position are all zero. -/
theorem empty_range_candle (st : DataProcessor) (k : KlineData)
    (hx : k.x = true) (hempty : tradesInRange st k.t k.T = []) :
    ∃ cd : CandleData, (process_minute_candle st k).1 = some cd ∧
      cd.num_buyers = 0 ∧ cd.num_sellers = 0 ∧ cd.buyers_volume = 0 ∧
      cd.sellers_volume = 0 ∧ cd.power_position = 0 := by
  rw [process_minute_candle_closed_fst st k hx]
  exact ⟨_, rfl, by simp [hempty], by simp [hempty], by simp [hempty],
    by simp [hempty], by simp [hempty]⟩

/-- C7 witness: concrete instance of the empty-range theorem. -/
theorem empty_range_candle_witness :
    ∃ cd : CandleData,
      (process_minute_candle DataProcessor.init c3_kline).1 = some cd ∧
      cd.num_buyers = 0 ∧ cd.num_sellers = 0 ∧ cd.buyers_volume = 0 ∧
      cd.sellers_volume = 0 ∧ cd.power_position = 0 :=
  empty_range_candle DataProcessor.init c3_kline rfl (by decide)

/-- C8: a kline not marked closed produces `none` and leaves the state
untouched — no buffer change, no tally change, no eviction. -/
theorem non_closed_noop (st : DataProcessor) (k : KlineData)
    (hx : k.x = false) :
    process_minute_candle st k = (none, st) := by
  rw [process_minute_candle, hx]
  rfl

/-- C8 witness: concrete instance of the non-closed no-op theorem. -/
theorem non_closed_noop_witness :
    process_minute_candle DataProcessor.init (⟨false, 0, 3000, 1, 1, 1, 1, 1⟩ : KlineData) =
      (none, DataProcessor.init) :=
  non_closed_noop DataProcessor.init ⟨false, 0, 3000, 1, 1, 1, 1, 1⟩ rfl

/-- C9: on a well-formed bucket summary (open/close times and all OHLCV
fields present and parseable), `process_minute_candle` with parsing made
explicit never fails — the operations of the core are total over their
documented domains. -/
theorem process_minute_candle_total (st : DataProcessor) (k : KlineRaw)
    (hwf : k.wellFormed) : (processMinuteCandleChecked st k).isSome := by
  obtain ⟨ht, hT, ho, hh, hl, hc, hv⟩ := hwf
  obtain ⟨t, ht⟩ := Option.isSome_iff_exists.mp ht
  obtain ⟨tc, hT⟩ := Option.isSome_iff_exists.mp hT
  obtain ⟨o, ho⟩ := Option.isSome_iff_exists.mp ho
  obtain ⟨h', hh⟩ := Option.isSome_iff_exists.mp hh
  obtain ⟨l, hl⟩ := Option.isSome_iff_exists.mp hl
  obtain ⟨c, hc⟩ := Option.isSome_iff_exists.mp hc
  obtain ⟨v, hv⟩ := Option.isSome_iff_exists.mp hv
  by_cases hx : (k.x?.getD false) = true
  · simp [processMinuteCandleChecked, hx, ht, hT, ho, hh, hl, hc, hv]
  · simp [processMinuteCandleChecked, hx]

/-- C9 witness: concrete instance of the totality theorem. -/
theorem process_minute_candle_total_witness :
    (processMinuteCandleChecked DataProcessor.init c9_kline).isSome :=
  process_minute_candle_total DataProcessor.init c9_kline
    ⟨rfl, rfl, rfl, rfl, rfl, rfl, rfl⟩

/-- C10: for a candle produced from a non-empty matched-trade set, the
buyer and seller counts partition the trades in the bucket's inclusive
range, and the buyer and seller volumes partition the total matched
quantity — every matched trade lands on exactly one side. -/
theorem partition_completeness (st : DataProcessor) (k : KlineData)
    (cd : CandleData) (hx : k.x = true)
    (hne : tradesInRange st k.t k.T ≠ [])
    (h : (process_minute_candle st k).1 = some cd) :
    cd.num_buyers + cd.num_sellers = (tradesInRange st k.t k.T).length ∧
    cd.buyers_volume + cd.sellers_volume =
      ((tradesInRange st k.t k.T).map (fun trade => trade.quantity)).sum := by
  have hie : (tradesInRange st k.t k.T).isEmpty = false := by
    cases hE : tradesInRange st k.t k.T with
    | nil => exact absurd hE hne
    | cons a tl => rfl
  rw [process_minute_candle_closed_fst st k hx] at h
  injection h with h
  subst h
  dsimp only
  rw [hie]
  simp only [Bool.false_eq_true, if_false]
  exact ⟨length_buyers_sellers _, sum_buyers_sellers _⟩

/-- C10 witness: concrete instance of the partition theorem. -/
theorem partition_completeness_witness :
    c1_candle.num_buyers + c1_candle.num_sellers =
      (tradesInRange c1_state c1_kline.t c1_kline.T).length ∧
    c1_candle.buyers_volume + c1_candle.sellers_volume =
      ((tradesInRange c1_state c1_kline.t c1_kline.T).map
        (fun trade => trade.quantity)).sum :=
  partition_completeness c1_state c1_kline c1_candle rfl (by decide) c1_run_eq

end BinanceCollector
